import Mathlib

/-!
Shallow embedding of the discovery coordination layer (src/index.js):
topic lifecycle, domain derivation, the domain index, the local-channel
matcher, backoff delays, bootstrap ping, lookupOne, holepunch and the
ordered session shutdown.  Buffers are modelled as `List Nat` (bytes),
the single-threaded callback scheduler as explicit task lists, and the
external DHT / mDNS services as opaque event sources.
-/

namespace Discovery

/-! ### Bytes and hex encoding (`Buffer.prototype.toString('hex')`) -/

/-- One hex digit, lowercase, as `Buffer.toString('hex')` produces. -/
def hexDigit (n : Nat) : Char :=
  if n < 10 then Char.ofNat (48 + n) else Char.ofNat (87 + n)

/-- Two hex digits of one byte. -/
def byteHex (b : Nat) : List Char :=
  [hexDigit (b / 16 % 16), hexDigit (b % 16)]

/-- Hex encoding of a byte list. -/
def bufToHex (bs : List Nat) : String :=
  ⟨(bs.map byteHex).flatten⟩

/-! ### Domain derivation

`Discovery.prototype._domain` (src/index.js:305-307):
`key.slice(0, 20).toString('hex') + this._tld`, with
`this._tld = '.' + (opts.domain || 'hyperswarm.local')` (line 160). -/

/-- `this._tld` as set in the `Discovery` constructor. -/
def tld (suffix : String) : String := "." ++ suffix

/-- `Discovery.prototype._domain`. -/
def domain (suffix : String) (key : List Nat) : String :=
  bufToHex (key.take 20) ++ tld suffix

/-! ### Backoff delays

`Discovery.prototype._notify` (src/index.js:309-314):
`wait = eager ? 30000 : 300000; setTimeout(fn, Math.floor(wait + Math.random() * wait))`. -/

/-- The base wait of `_notify`. -/
def notifyWait (eager : Bool) : ℚ := if eager then 30000 else 300000

/-- The computed `setTimeout` delay of `_notify`, with `Math.random()`
abstracted as a rational draw `r`. -/
def notifyDelay (eager : Bool) (r : ℚ) : ℤ :=
  ⌊notifyWait eager + r * notifyWait eager⌋

/-! ### holepunch

`Discovery.prototype.holepunch` (src/index.js:222-225):
```
if (!peer.referrer) return process.nextTick(new Error('Referrer needed to holepunch'))
this.dht.holepunch(peer, peer.referrer, cb)
```
Note that on the no-referrer path the `Error` object itself is handed to
`process.nextTick` as the function to run; `cb` is not passed at all. -/

/-- A peer candidate as emitted by the topic event streams. -/
structure PeerCandidate where
  host : String
  port : Nat
  /-- the `local` flag of the emitted candidate object -/
  isLocal : Bool
  referrer : Option Nat
  deriving DecidableEq, Repr

/-- The externally visible effect of one `holepunch` call. -/
structure HolepunchEffect where
  /-- `this.dht.holepunch(...)` was invoked (with the candidate's referrer). -/
  externalInvoked : Bool
  /-- the referrer handed to `dht.holepunch`, when invoked -/
  referrerUsed : Option Nat
  /-- the caller's `cb` was handed to some continuation (so it can ever run) -/
  callbackScheduled : Bool
  deriving DecidableEq, Repr

/-- `Discovery.prototype.holepunch`.  On the no-referrer branch the code
runs `process.nextTick(new Error(...))`: the external operation is not
invoked, and `cb` is dropped (the `Error` takes the callback's place in
the `nextTick` call), so no continuation ever receives `cb`. -/
def holepunch (peer : PeerCandidate) : HolepunchEffect :=
  match peer.referrer with
  | none => { externalInvoked := false, referrerUsed := none, callbackScheduled := false }
  | some r => { externalInvoked := true, referrerUsed := some r, callbackScheduled := true }

/-! ### Bootstrap ping

`Discovery.prototype.ping` (src/index.js:165-184). -/

/-- A bootstrap node address. -/
abbrev Node := String

/-- One entry of the `res` array collected by `ping`. -/
structure PingRes where
  bootstrap : Node
  rtt : Nat
  pong : Nat
  deriving DecidableEq, Repr

/-- What `ping` can deliver to `cb`: an error or the collected results. -/
abbrev PingCallbackArg := Except String (List PingRes)

/-- The mutable state of `ping`'s completion handler: the collected
`res`, the remaining `missing` count, and every call made to `cb`. -/
structure PingAcc where
  res : List PingRes
  missing : Nat
  calls : List PingCallbackArg
  deriving Repr

/-- One `dht.ping` completion: which node, at what time, and the pong
payload (`none` models a failed ping, where `pong` is falsy). -/
structure PingCompletion where
  bootstrap : Node
  time : Nat
  pong : Option Nat
  deriving DecidableEq, Repr

/-- The completion callback of `ping` (src/index.js:177-183):
push a result when `pong` is truthy, decrement `missing`, and once it
hits zero call `cb` — with an error when `res` is empty, else with `res`. -/
def pingStep (start : Nat) (s : PingAcc) (c : PingCompletion) : PingAcc :=
  let res := match c.pong with
    | some p => s.res ++ [{ bootstrap := c.bootstrap, rtt := c.time - start, pong := p }]
    | none => s.res
  let m := s.missing - 1
  if m ≠ 0 then { res := res, missing := m, calls := s.calls }
  else if res = [] then
    { res := res, missing := 0, calls := s.calls ++ [Except.error "All bootstrap nodes failed"] }
  else { res := res, missing := 0, calls := s.calls ++ [Except.ok res] }

/-- The synchronous part of `ping` (src/index.js:165-176): an empty
bootstrap list schedules `cb` with an error and issues nothing;
otherwise one `dht.ping` is issued per bootstrap node, every one
carrying the same `start = Date.now()` timestamp. -/
inductive PingStart
  | immediateError (msg : String)
  | issued (ops : List (Node × Nat))
  deriving DecidableEq, Repr

/-- The synchronous dispatch of `ping`. -/
def pingCall (bootstrap : List Node) (now : Nat) : PingStart :=
  if bootstrap.length = 0 then PingStart.immediateError "No bootstrap nodes available"
  else PingStart.issued (bootstrap.map fun b => (b, now))

/-- Folding `ping`'s completion handler over a list of completions,
from the initial state `res = []`, `missing = bootstrap.length`. -/
def pingRun (bootstrap : List Node) (start : Nat) (cs : List PingCompletion) : PingAcc :=
  cs.foldl (pingStep start) { res := [], missing := bootstrap.length, calls := [] }

/-- The responders among a completion list, with their round-trip times:
the value `res` holds after those completions have been processed. -/
def pingResponders (start : Nat) (cs : List PingCompletion) : List PingRes :=
  cs.filterMap fun c =>
    c.pong.map fun p => { bootstrap := c.bootstrap, rtt := c.time - start, pong := p }

/-- The one call `ping` makes to `cb` when the last completion arrives. -/
def pingFinalCall (res : List PingRes) : PingCallbackArg :=
  if res = [] then Except.error "All bootstrap nodes failed" else Except.ok res

/-! ### Topic construction

The `Topic` constructor (src/index.js:9-33) and the option mapping in
`Discovery.prototype.announce` (src/index.js:207-220). -/

/-- The announce descriptor stored on `topic.announce`. -/
structure AnnounceDesc where
  port : Nat
  localAddress : Option String
  deriving DecidableEq, Repr

/-- The options `Discovery.prototype._topic` hands to `new Topic`.
`localPort = 0` models an absent or zero `opts.localPort` (both falsy). -/
structure TopicOpts where
  localPort : Nat := 0
  lookup : Bool := false
  announce : Option AnnounceDesc := none
  deriving DecidableEq, Repr

/-- SRV payload of an answer record. -/
structure SrvData where
  target : String
  port : Nat
  deriving DecidableEq, Repr

/-- A DNS record as used in mDNS packets and topic answers. -/
inductive DnsRecord
  | txt (name : String) (data : List (List Nat))
  | srv (name : String) (data : SrvData)
  deriving DecidableEq, Repr

/-- `this._answer` as computed in the Topic constructor
(src/index.js:19,27-29): an SRV record with the wildcard target
`'0.0.0.0'` when the local port is nonzero, else `null`. -/
def topicAnswer (name : String) (port : Nat) : Option DnsRecord :=
  if port ≠ 0 then some (DnsRecord.srv name { target := "0.0.0.0", port := port }) else none

/-- Per-topic state relevant to these claims: the key, the announce
descriptor, the session token `id` (the bytes `'id='` followed by 32
random bytes), the derived domain (`this._domain`) and the optional
SRV answer record (`this._answer`). -/
structure Topic where
  key : List Nat
  announce : Option AnnounceDesc
  id : List Nat
  domainName : String
  answer : Option DnsRecord
  deriving DecidableEq, Repr

/-- The byte prefix `'id='` of the session token (src/index.js:17). -/
def idPrefix : List Nat := [105, 100, 61]

/-- The `Topic` constructor (src/index.js:9-33), with the 32 random
token bytes passed in explicitly. -/
def Topic.make (suffix : String) (key : List Nat) (opts : TopicOpts) (rand : List Nat) : Topic :=
  let name := domain suffix key
  { key := key
    announce := opts.announce
    id := idPrefix ++ rand
    domainName := name
    answer := topicAnswer name opts.localPort }

/-- Caller-facing options of `Discovery.prototype.announce`. -/
structure AnnounceOpts where
  localPort : Nat := 0
  port : Nat := 0
  localAddress : Option String := none
  lookup : Bool := false
  deriving DecidableEq, Repr

/-- The topic options `announce` builds (src/index.js:210-217):
`localPort: opts.localPort || opts.port || 0`, `lookup: opts && opts.lookup`,
`announce: { port: opts.port || 0, localAddress: opts.localAddress }`. -/
def announceTopicOpts (opts : AnnounceOpts) : TopicOpts :=
  { localPort := if opts.localPort ≠ 0 then opts.localPort
                 else if opts.port ≠ 0 then opts.port else 0
    lookup := opts.lookup
    announce := some { port := opts.port, localAddress := opts.localAddress } }

/-- The Topic an `announce(key, opts)` call constructs. -/
def announceTopic (suffix : String) (key : List Nat) (opts : AnnounceOpts) (rand : List Nat) : Topic :=
  Topic.make suffix key (announceTopicOpts opts) rand

/-! ### Domain Index

`this._domains : Map<domain string, Set<Topic>>`.  Insertion happens in
`Discovery.prototype._topic` (src/index.js:262-271), removal in
`Topic.prototype.destroy` (src/index.js:53-55).  The map is modelled as
an association list in insertion order, a JS `Set` as a duplicate-free
list of members. -/

/-- The domain index. -/
abbrev DomainMap := List (String × List Topic)

/-- `this._domains.get(d)`. -/
def domainsGet (m : DomainMap) (d : String) : Option (List Topic) :=
  (m.find? fun e => e.1 == d).map (·.2)

/-- `Set.prototype.add`: a JS set ignores an already-present member. -/
def setAdd (s : List Topic) (t : Topic) : List Topic :=
  if t ∈ s then s else s ++ [t]

/-- The index insertion of `_topic` (src/index.js:265-269): create an
empty entry when the domain is absent, then add the topic to its set. -/
def domainsInsert (m : DomainMap) (d : String) (t : Topic) : DomainMap :=
  match domainsGet m d with
  | none => m ++ [(d, setAdd [] t)]
  | some s => m.map fun e => if e.1 = d then (d, setAdd s t) else e

/-- The index removal of `Topic.destroy` (src/index.js:53-55): delete
the topic from its domain's set, dropping the whole entry the moment
the set becomes empty.  (The code reads the entry unconditionally; a
live topic is always present, so the absent case — a no-op here — is
unreachable.) -/
def domainsRemove (m : DomainMap) (d : String) (t : Topic) : DomainMap :=
  match domainsGet m d with
  | none => m
  | some s =>
    let s2 := s.erase t
    if s2 = [] then m.filter fun e => !(e.1 == d)
    else m.map fun e => if e.1 = d then (d, s2) else e

/-- One index operation: registration of a created Topic (`_topic`) or
removal of a destroyed one (`Topic.destroy`). -/
inductive DomainOp
  | insert (d : String) (t : Topic)
  | remove (d : String) (t : Topic)
  deriving DecidableEq, Repr

/-- Apply one index operation. -/
def applyDomainOp (m : DomainMap) : DomainOp → DomainMap
  | DomainOp.insert d t => domainsInsert m d t
  | DomainOp.remove d t => domainsRemove m d t

/-- Apply a whole operation sequence to the initially empty index. -/
def applyDomainOps (ops : List DomainOp) : DomainMap :=
  ops.foldl applyDomainOp []

/-! ### Local Channel Matcher

`Discovery.prototype._getId` (src/index.js:253-260) and
`Discovery.prototype._onmdnsquery` (src/index.js:288-303). -/

/-- A question of an mDNS packet. -/
structure Question where
  qtype : String
  name : String
  deriving DecidableEq, Repr

/-- An mDNS packet: questions plus answer records. -/
structure Packet where
  questions : List Question := []
  answers : List DnsRecord := []
  deriving DecidableEq, Repr

/-- `Discovery.prototype._getId`: the first TXT answer with the given
name and non-empty data yields its first datum, else `null`. -/
def getId (res : Packet) (name : String) : Option (List Nat) :=
  res.answers.findSome? fun a =>
    match a with
    | DnsRecord.txt n (d :: _) => if n = name then some d else none
    | _ => none

/-- The self-filter test `id && topic.id.equals(id)` (src/index.js:297). -/
def idMatches (id : Option (List Nat)) (t : Topic) : Bool :=
  match id with
  | some i => t.id == i
  | none => false

/-- The contribution of one question to the aggregated response
(the body of the outer loop of `_onmdnsquery`): for an SRV question
over an indexed domain, every topic of that domain contributes its
answer record unless its token matches the querier's. -/
def questionAnswers (domains : DomainMap) (res : Packet) (q : Question) : List DnsRecord :=
  match (if q.qtype = "SRV" then domainsGet domains q.name else none) with
  | none => []
  | some s =>
    s.filterMap fun t => if idMatches (getId res q.name) t then none else t.answer

/-- The `r.answers` array `_onmdnsquery` accumulates over all questions. -/
def onmdnsqueryAnswers (domains : DomainMap) (res : Packet) : List DnsRecord :=
  res.questions.flatMap (questionAnswers domains res)

/-- The responses `_onmdnsquery` sends: exactly one, the aggregate
(`this.mdns.response(r)` runs once per incoming query). -/
def onmdnsquery (domains : DomainMap) (res : Packet) : List Packet :=
  [{ questions := [], answers := onmdnsqueryAnswers domains res }]

/-- The query a topic's local loop broadcasts (src/index.js:78-88): one
SRV question for its domain plus one TXT answer carrying its token. -/
def topicQuery (t : Topic) : Packet :=
  { questions := [{ qtype := "SRV", name := t.domainName }]
    answers := [DnsRecord.txt t.domainName [t.id]] }

/-! ### Topic channel state machine

The channel flags of a live Topic (src/index.js:22-25) and the handlers
that mutate them: `destroy` / `_stopDht` (src/index.js:46-61, 98-102),
`_ondhtdata` (63-73), the stream `done` handler inside `_startDht`
(112-131), and the mDNS response dispatch `_onmdnsresponse` (273-286). -/

/-- The channel flags of a Topic: the `destroyed` flag, the two pending
retry handles (`null` modelled as `false`) and the live stream handle. -/
structure TopicState where
  destroyed : Bool
  timeoutDht : Bool
  timeoutMdns : Bool
  stream : Bool
  deriving DecidableEq, Repr

/-- An event a Topic can emit on its peer/update stream. -/
inductive TopicEmit
  | peer (host : String) (port : Nat) (isLocal : Bool) (referrer : Option Nat)
  | update (err : Option String)
  deriving DecidableEq, Repr

/-- One `data` event of the DHT stream: the referrer node plus the
local-heuristic and remote peer lists. -/
structure DhtData where
  node : Nat
  localPeers : List (String × Nat)
  peers : List (String × Nat)
  deriving DecidableEq, Repr

/-- The state part of `Topic.prototype.destroy` (src/index.js:46-51):
mark destroyed, clear both pending retries, destroy a live stream. -/
def topicDestroyState (s : TopicState) : TopicState :=
  if s.destroyed then s
  else { destroyed := true, timeoutDht := false, timeoutMdns := false, stream := false }

/-- `Topic.prototype._ondhtdata` (src/index.js:63-73): ignored on a
destroyed topic; otherwise every local and remote peer of the data
event is surfaced immediately. -/
def ondhtdata (s : TopicState) (d : DhtData) : List TopicEmit :=
  if s.destroyed then []
  else d.localPeers.map (fun p => TopicEmit.peer p.1 p.2 true none) ++
    d.peers.map (fun p => TopicEmit.peer p.1 p.2 false (some d.node))

/-- The `done` handler of the DHT loop (src/index.js:124-130): ignored
when the per-stream `called` flag is set or the topic is destroyed;
otherwise it drops the stream, emits `update` and schedules the lazy
retry. -/
def ondhtdone (s : TopicState) (called : Bool) (err : Option String) :
    TopicState × List TopicEmit :=
  if called || s.destroyed then (s, [])
  else ({ s with stream := false, timeoutDht := true }, [TopicEmit.update err])

/-- `Discovery.prototype._onmdnsresponse` (src/index.js:273-286): for
each SRV answer naming an indexed domain, one local peer event is
delivered to every Topic of that domain, the sender address substituted
for a wildcard target. -/
def answerDeliveries (domains : DomainMap) (senderAddr : String) :
    DnsRecord → List (Topic × TopicEmit)
  | DnsRecord.srv name data =>
    match domainsGet domains name with
    | none => []
    | some s =>
      let host := if data.target = "0.0.0.0" then senderAddr else data.target
      s.map fun t => (t, TopicEmit.peer host data.port true none)
  | _ => []

/-- The full fan-out of one inbound multicast response. -/
def onmdnsresponse (domains : DomainMap) (res : Packet) (senderAddr : String) :
    List (Topic × TopicEmit) :=
  res.answers.flatMap (answerDeliveries domains senderAddr)

/-! ### lookupOne

`Discovery.prototype.lookupOne` (src/index.js:186-199) attaches
`onclose` with `on('close', ...)` and `onpeer` with `once('peer', ...)`
to a lookup Topic.  The Topic's `close` event is emitted by
`Topic.prototype.destroy` only; the global loop's stream ending or
erring emits `update` and reschedules (src/index.js:124-130). -/

/-- An event the lookup Topic delivers: a peer candidate, the Topic's
`close`, or an `update` (the global loop ended/erred and rescheduled). -/
inductive LookupEvent
  | peer (p : PeerCandidate)
  | closeEv
  | update (err : Option String)
  deriving DecidableEq, Repr

/-- An externally visible action of `lookupOne`. -/
inductive LookupAction
  | destroyTopic
  | callback (r : Except String PeerCandidate)
  deriving Repr

/-- The listener state of `lookupOne`: whether the `once('peer')`
listener is still armed and the `close` listener still attached. -/
structure LookupOneState where
  peerArmed : Bool
  closeArmed : Bool
  deriving DecidableEq, Repr

/-- One event dispatch (src/index.js:187-198): the first `peer` event
removes the close listener, destroys the Topic, then resolves `cb`;
a `close` event while the close listener is attached fails `cb`;
`update` events have no listener. -/
def lookupOneStep (s : LookupOneState) :
    LookupEvent → LookupOneState × List LookupAction
  | LookupEvent.peer p =>
    if s.peerArmed then
      ({ peerArmed := false, closeArmed := false },
        [LookupAction.destroyTopic, LookupAction.callback (Except.ok p)])
    else (s, [])
  | LookupEvent.closeEv =>
    if s.closeArmed then (s, [LookupAction.callback (Except.error "Lookup failed")])
    else (s, [])
  | LookupEvent.update _ => (s, [])

/-- Fold the dispatch over an event trace, accumulating actions. -/
def lookupOneFold (events : List LookupEvent)
    (init : LookupOneState × List LookupAction) : LookupOneState × List LookupAction :=
  events.foldl
    (fun acc e =>
      let r := lookupOneStep acc.1 e
      (r.1, acc.2 ++ r.2))
    init

/-- The actions `lookupOne` performs over a topic event trace; both
listeners start attached. -/
def lookupOneRun (events : List LookupEvent) : List LookupAction :=
  (lookupOneFold events ({ peerArmed := true, closeArmed := true }, [])).2

/-! ### Session destroy

`Discovery.prototype.destroy` (src/index.js:227-251) together with the
close scheduling of `Topic.prototype.destroy` (src/index.js:57-60).
The synchronous part sets `missing = 1`, then for every live topic
increments `missing`, destroys the topic and subscribes `done` to its
`close`; finally it schedules `process.nextTick(done)`.  Each topic's
`close` arrives deferred: by `process.nextTick` for a non-announcing
topic, by the `dht.unannounce` callback for an announcing one.  `done`
decrements `missing` and, at zero, destroys the DHT handle and emits
the session `close`. -/

/-- A topic as session teardown sees it: announcing or not (this only
selects which deferred mechanism delivers its `close`). -/
structure DTopic where
  announcing : Bool
  deriving DecidableEq, Repr

/-- A deferred completion of the teardown: delivery of topic `i`'s
`close` (via `nextTick` or via the `unannounce` callback), or the
session's own `process.nextTick(done)`. -/
inductive SessionTask
  | topicClose (i : Nat) (viaUnannounce : Bool)
  | finalTick
  deriving DecidableEq, Repr

/-- An externally observable event of the teardown. -/
inductive SessionEvent
  | topicClosed (i : Nat)
  | sessionClosed
  deriving DecidableEq, Repr

/-- The join state of `destroy`: the `missing` counter and the emitted
events so far. -/
structure SessionState where
  missing : Nat
  trace : List SessionEvent
  deriving DecidableEq, Repr

/-- The `done` closure (src/index.js:246-250): decrement `missing`; at
zero, destroy the DHT handle and emit the session `close`. -/
def doneStep (s : SessionState) : SessionState :=
  let m := s.missing - 1
  if m = 0 then { missing := 0, trace := s.trace ++ [SessionEvent.sessionClosed] }
  else { missing := m, trace := s.trace }

/-- Run one deferred task: a topic's `close` delivery first emits that
topic's `close` and then runs its subscribed `done`; the session's own
`nextTick` runs `done` directly. -/
def runSessionTask (s : SessionState) : SessionTask → SessionState
  | SessionTask.topicClose i _ =>
    doneStep { missing := s.missing, trace := s.trace ++ [SessionEvent.topicClosed i] }
  | SessionTask.finalTick => doneStep s

/-- Whether topic `i` of the list announces. -/
def announcingAt (topics : List DTopic) (i : Nat) : Bool :=
  ((topics.get? i).map (·.announcing)).getD false

/-- The deferred tasks the synchronous part of `destroy` creates: one
`close` delivery per live topic plus the session's own
`nextTick(done)`. -/
def destroyTasks (topics : List DTopic) : List SessionTask :=
  ((List.range topics.length).map fun i => SessionTask.topicClose i (announcingAt topics i)) ++
    [SessionTask.finalTick]

/-- The state right after the synchronous part of `destroy` returns:
`missing = 1 + #topics`, nothing emitted yet. -/
def destroyInit (topics : List DTopic) : SessionState :=
  { missing := 1 + topics.length, trace := [] }

/-- The events one task emits before it may complete the join. -/
def sessionTaskEvents : SessionTask → List SessionEvent
  | SessionTask.topicClose i _ => [SessionEvent.topicClosed i]
  | SessionTask.finalTick => []

/-- A complete teardown: the deferred tasks run in some order (the
unannounce round-trips complete at arbitrary times relative to the
`nextTick`s, so any order is admitted). -/
def destroyRun (topics : List DTopic) (order : List SessionTask) : SessionState :=
  order.foldl runSessionTask (destroyInit topics)

/-! ## Theorems -/

/-- C2: for every topic key, `_domain` returns the hex encoding of the
key's first 20 bytes, a dot, and the session-configured suffix; it
depends only on the first 20 bytes, so two keys agreeing on those bytes
give the same domain string. -/
theorem domain_spec (suffix : String) (k k₁ k₂ : List Nat) :
    domain suffix k = bufToHex (k.take 20) ++ "." ++ suffix ∧
    (k₁.take 20 = k₂.take 20 → domain suffix k₁ = domain suffix k₂) := by
  constructor
  · show bufToHex (k.take 20) ++ ("." ++ suffix) = bufToHex (k.take 20) ++ "." ++ suffix
    exact (String.append_assoc _ _ _).symm
  · intro h
    simp only [domain, h]

/-- Witness for `domain_spec`: two distinct 21-byte keys sharing their
first 20 bytes map to the same domain. -/
theorem domain_spec_witness :
    (List.replicate 20 0 ++ [1]).take 20 = (List.replicate 20 0 ++ [2]).take 20 ∧
    domain "local" (List.replicate 20 0 ++ [1]) = domain "local" (List.replicate 20 0 ++ [2]) := by
  refine ⟨by decide, ?_⟩
  exact (domain_spec "local" [] (List.replicate 20 0 ++ [1]) (List.replicate 20 0 ++ [2])).2 (by decide)

/-- C7: for every random draw `r ∈ [0,1)`, the eager delay lies in
`[30000, 60000)` milliseconds and the lazy delay in `[300000, 600000)`. -/
theorem notifyDelay_bounds (r : ℚ) (h0 : 0 ≤ r) (h1 : r < 1) :
    (30000 ≤ notifyDelay true r ∧ notifyDelay true r < 60000) ∧
    (300000 ≤ notifyDelay false r ∧ notifyDelay false r < 600000) := by
  have hb : ∀ w : ℚ, 0 < w → w ≤ w + r * w ∧ w + r * w < 2 * w := by
    intro w hw
    constructor
    · nlinarith
    · nlinarith
  constructor
  · constructor
    · rw [notifyDelay, notifyWait]
      exact Int.le_floor.2 (by exact_mod_cast (hb 30000 (by norm_num)).1)
    · rw [notifyDelay, notifyWait]
      exact Int.floor_lt.2 (by exact_mod_cast (hb 30000 (by norm_num)).2)
  · constructor
    · rw [notifyDelay, notifyWait]
      exact Int.le_floor.2 (by exact_mod_cast (hb 300000 (by norm_num)).1)
    · rw [notifyDelay, notifyWait]
      exact Int.floor_lt.2 (by exact_mod_cast (hb 300000 (by norm_num)).2)

/-- Witness for `notifyDelay_bounds` at the draw `r = 1/2`. -/
theorem notifyDelay_bounds_witness :
    (0 ≤ (1/2 : ℚ) ∧ (1/2 : ℚ) < 1) ∧
    ((30000 ≤ notifyDelay true (1/2) ∧ notifyDelay true (1/2) < 60000) ∧
     (300000 ≤ notifyDelay false (1/2) ∧ notifyDelay false (1/2) < 600000)) :=
  ⟨⟨by norm_num, by norm_num⟩, notifyDelay_bounds (1/2) (by norm_num) (by norm_num)⟩

/-- C5 (code bug, evaluated at the failing input): a `holepunch` call on
a candidate with no referrer does not invoke the external hole-punch
operation, but it also never schedules the caller's callback — the code
passes the `Error` object to `process.nextTick` in place of `cb`, so the
error is not reported to the caller.  With a referrer present the call
delegates to `dht.holepunch` with that referrer and `cb`. -/
theorem holepunch_no_referrer :
    (holepunch { host := "127.0.0.1", port := 8080, isLocal := true, referrer := none }).externalInvoked = false ∧
    (holepunch { host := "127.0.0.1", port := 8080, isLocal := true, referrer := none }).callbackScheduled = false ∧
    (holepunch { host := "127.0.0.1", port := 8080, isLocal := false, referrer := some 7 }) =
      { externalInvoked := true, referrerUsed := some 7, callbackScheduled := true } := by
  refine ⟨rfl, rfl, rfl⟩

/-- The responders of `c :: cs` split into those of `[c]` and of `cs`. -/
theorem pingResponders_cons (start : Nat) (c : PingCompletion) (cs : List PingCompletion) :
    pingResponders start (c :: cs) = pingResponders start [c] ++ pingResponders start cs := by
  cases hp : c.pong <;> simp [pingResponders, hp]

/-- One handler step appends exactly the responder entry of that
completion to `res`. -/
theorem pingStep_res (start : Nat) (s : PingAcc) (c : PingCompletion) :
    (pingStep start s c).res = s.res ++ pingResponders start [c] := by
  cases hp : c.pong <;>
    (simp only [pingStep, hp]; split_ifs <;> simp [pingResponders, hp])

/-- One handler step decrements `missing`. -/
theorem pingStep_missing (start : Nat) (s : PingAcc) (c : PingCompletion) :
    (pingStep start s c).missing = s.missing - 1 := by
  cases hp : c.pong <;>
    (simp only [pingStep, hp]; split_ifs <;> (try simp) <;> omega)

/-- One handler step calls `cb` exactly when it brings `missing` to
zero, and then with the aggregate result. -/
theorem pingStep_calls (start : Nat) (s : PingAcc) (c : PingCompletion) :
    (pingStep start s c).calls = s.calls ++
      (if s.missing - 1 = 0 then [pingFinalCall (s.res ++ pingResponders start [c])] else []) := by
  by_cases hm : s.missing - 1 = 0
  · rw [if_pos hm]
    cases hp : c.pong <;>
      (simp only [pingStep, hp, hm]; split_ifs <;> simp_all [pingFinalCall, pingResponders])
  · rw [if_neg hm, List.append_nil]
    cases hp : c.pong <;> simp [pingStep, hp, hm]

/-- `res` after a fold of the completion handler: the previous `res`
followed by the responders, whatever `missing` was. -/
theorem pingStep_fold_res (start : Nat) (cs : List PingCompletion) :
    ∀ s : PingAcc, (cs.foldl (pingStep start) s).res = s.res ++ pingResponders start cs := by
  induction cs with
  | nil => intro s; simp [pingResponders]
  | cons c cs ih =>
    intro s
    rw [List.foldl_cons, ih, pingStep_res, pingResponders_cons start c cs, List.append_assoc]

/-- `missing` after a fold of the completion handler drops by one per
completion. -/
theorem pingStep_fold_missing (start : Nat) (cs : List PingCompletion) :
    ∀ s : PingAcc, (cs.foldl (pingStep start) s).missing = s.missing - cs.length := by
  induction cs with
  | nil => intro s; simp
  | cons c cs ih =>
    intro s
    rw [List.foldl_cons, ih, pingStep_missing, List.length_cons, Nat.sub_sub, Nat.add_comm]

/-- While completions are still outstanding (`missing` stays positive),
no call to `cb` is made. -/
theorem pingStep_fold_calls_early (start : Nat) (cs : List PingCompletion) :
    ∀ s : PingAcc, cs.length < s.missing →
      (cs.foldl (pingStep start) s).calls = s.calls := by
  induction cs with
  | nil => intro s _; simp
  | cons c cs ih =>
    intro s hlen
    simp only [List.length_cons] at hlen
    have hmiss : cs.length < (pingStep start s c).missing := by
      rw [pingStep_missing]; omega
    rw [List.foldl_cons, ih _ hmiss, pingStep_calls, if_neg (by omega), List.append_nil]

/-- When the completions exactly exhaust `missing`, the fold makes one
call to `cb`, carrying the aggregate of the responders. -/
theorem pingStep_fold_calls_last (start : Nat) (cs : List PingCompletion) :
    ∀ s : PingAcc, cs ≠ [] → cs.length = s.missing →
      (cs.foldl (pingStep start) s).calls =
        s.calls ++ [pingFinalCall (s.res ++ pingResponders start cs)] := by
  induction cs with
  | nil => intro s h; exact absurd rfl h
  | cons c cs ih =>
    intro s _ hlen
    simp only [List.length_cons] at hlen
    by_cases hnil : cs = []
    · subst hnil
      simp only [List.length_nil, Nat.zero_add] at hlen
      rw [List.foldl_cons, List.foldl_nil, pingStep_calls, if_pos (by omega)]
    · have hcs : cs.length ≠ 0 := fun h => hnil (List.length_eq_zero.1 h)
      have hmiss : cs.length = (pingStep start s c).missing := by
        rw [pingStep_missing]; omega
      rw [List.foldl_cons, ih _ hnil hmiss, pingStep_calls, if_neg (by omega),
        List.append_nil, pingStep_res, pingResponders_cons start c cs, List.append_assoc]

/-- C6: `ping` with an empty bootstrap list fails immediately and issues
no network operation; with a non-empty list it issues one ping per
bootstrap node, all sharing one start timestamp, makes no call to `cb`
while any ping is outstanding, and once every ping has completed makes
exactly one call — successful with the non-empty responder list when at
least one node responded, an error only when none did. -/
theorem ping_spec (bootstrap : List Node) (now start : Nat) (cs : List PingCompletion) :
    (bootstrap = [] → pingCall bootstrap now = PingStart.immediateError "No bootstrap nodes available") ∧
    (bootstrap ≠ [] →
      pingCall bootstrap now = PingStart.issued (bootstrap.map fun b => (b, now)) ∧
      ∀ op ∈ bootstrap.map fun b => (b, now), op.2 = now) ∧
    (cs.length < bootstrap.length → (pingRun bootstrap start cs).calls = []) ∧
    (bootstrap ≠ [] → cs.length = bootstrap.length →
      (pingRun bootstrap start cs).calls = [pingFinalCall (pingResponders start cs)] ∧
      (pingResponders start cs ≠ [] →
        pingFinalCall (pingResponders start cs) = Except.ok (pingResponders start cs)) ∧
      (pingResponders start cs = [] →
        pingFinalCall (pingResponders start cs) = Except.error "All bootstrap nodes failed")) := by
  refine ⟨?_, ?_, ?_, ?_⟩
  · intro h; subst h; rfl
  · intro h
    refine ⟨?_, ?_⟩
    · have : bootstrap.length ≠ 0 := by simpa using h
      simp [pingCall, this]
    · intro op hop
      rcases List.mem_map.1 hop with ⟨b, _, rfl⟩
      rfl
  · intro hlt
    exact pingStep_fold_calls_early start cs _ (by simpa using hlt)
  · intro hne hlen
    have hcs : cs ≠ [] := by
      intro h; subst h
      exact hne (List.length_eq_zero.1 hlen.symm)
    refine ⟨?_, ?_, ?_⟩
    · have := pingStep_fold_calls_last start cs
        { res := [], missing := bootstrap.length, calls := [] } hcs (by simpa using hlen)
      simpa [pingRun] using this
    · intro h; simp [pingFinalCall, h]
    · intro h; simp [pingFinalCall, h]

/-- Witness for `ping_spec`: two bootstrap nodes, one responder — `cb`
is called exactly once, with the non-empty responder list. -/
theorem ping_spec_witness :
    (["a", "b"] : List Node) ≠ [] ∧
    ([⟨"a", 5, some 1⟩, ⟨"b", 9, none⟩] : List PingCompletion).length = (["a", "b"] : List Node).length ∧
    (pingRun ["a", "b"] 0 [⟨"a", 5, some 1⟩, ⟨"b", 9, none⟩]).calls =
      [pingFinalCall (pingResponders 0 [⟨"a", 5, some 1⟩, ⟨"b", 9, none⟩])] :=
  ⟨by decide, rfl,
    ((ping_spec ["a", "b"] 0 0 [⟨"a", 5, some 1⟩, ⟨"b", 9, none⟩]).2.2.2
      (by decide) rfl).1⟩

/-- C10: when `announce(key, opts)` is called with `opts.localPort`
absent/zero but `opts.port` nonzero, the constructed Topic's local port
defaults to `opts.port` and its SRV answer record carries `opts.port`;
the Topic has no SRV answer record exactly when both are absent/zero. -/
theorem announce_localPort_default (suffix : String) (key : List Nat)
    (opts : AnnounceOpts) (rand : List Nat) :
    (opts.localPort = 0 → opts.port ≠ 0 →
      (announceTopic suffix key opts rand).answer =
        some (DnsRecord.srv (domain suffix key) { target := "0.0.0.0", port := opts.port })) ∧
    ((announceTopic suffix key opts rand).answer = none ↔
      opts.localPort = 0 ∧ opts.port = 0) := by
  constructor
  · intro h0 hp
    simp [announceTopic, Topic.make, announceTopicOpts, topicAnswer, h0, hp]
  · by_cases h0 : opts.localPort = 0 <;> by_cases hp : opts.port = 0 <;>
      simp [announceTopic, Topic.make, announceTopicOpts, topicAnswer, h0, hp]

/-- Witness for `announce_localPort_default`: `localPort` omitted,
`port = 4000` — the SRV answer carries 4000. -/
theorem announce_localPort_default_witness :
    (announceTopic "local" [1, 2] { localPort := 0, port := 4000 } []).answer =
      some (DnsRecord.srv (domain "local" [1, 2]) { target := "0.0.0.0", port := 4000 }) :=
  (announce_localPort_default "local" [1, 2] { localPort := 0, port := 4000 } []).1 rfl
    (by decide)

/-- `Set.add` never produces an empty set. -/
theorem setAdd_ne_nil (s : List Topic) (t : Topic) : setAdd s t ≠ [] := by
  rw [setAdd]
  split
  · next hmem =>
    intro h
    subst h
    simp at hmem
  · simp

/-- Index insertion preserves the no-empty-set invariant. -/
theorem domainsInsert_inv (m : DomainMap) (d : String) (t : Topic)
    (h : ∀ e ∈ m, e.2 ≠ []) : ∀ e ∈ domainsInsert m d t, e.2 ≠ [] := by
  intro e he
  unfold domainsInsert at he
  split at he
  · rcases List.mem_append.1 he with h1 | h1
    · exact h e h1
    · have he2 : e = (d, setAdd [] t) := by simpa using h1
      rw [he2]
      exact setAdd_ne_nil [] t
  · next s _ =>
    rcases List.mem_map.1 he with ⟨e0, he0, rfl⟩
    by_cases hd : e0.1 = d
    · rw [if_pos hd]
      exact setAdd_ne_nil s t
    · rw [if_neg hd]
      exact h e0 he0

/-- Index removal preserves the no-empty-set invariant: the entry is
deleted the instant its set becomes empty. -/
theorem domainsRemove_inv (m : DomainMap) (d : String) (t : Topic)
    (h : ∀ e ∈ m, e.2 ≠ []) : ∀ e ∈ domainsRemove m d t, e.2 ≠ [] := by
  intro e he
  unfold domainsRemove at he
  split at he
  · exact h e he
  · next s _ =>
    simp only at he
    split at he
    · exact h e (List.mem_of_mem_filter he)
    · next h2 =>
      rcases List.mem_map.1 he with ⟨e0, he0, rfl⟩
      by_cases hd : e0.1 = d
      · rw [if_pos hd]
        exact h2
      · rw [if_neg hd]
        exact h e0 he0

/-- The fold of index operations preserves the invariant. -/
theorem applyDomainOps_inv (ops : List DomainOp) :
    ∀ m : DomainMap, (∀ e ∈ m, e.2 ≠ []) →
      ∀ e ∈ ops.foldl applyDomainOp m, e.2 ≠ [] := by
  induction ops with
  | nil => intro m hm; simpa using hm
  | cons op ops ih =>
    intro m hm
    rw [List.foldl_cons]
    refine ih _ ?_
    cases op with
    | insert d t => exact domainsInsert_inv m d t hm
    | remove d t => exact domainsRemove_inv m d t hm

/-- C9: the Domain Index never maps a domain string to an empty set:
after any sequence of Topic registrations (`_topic`) and removals
(`Topic.destroy`) applied to the initially empty index, every domain
present holds at least one Topic. -/
theorem domainIndex_no_empty_set (ops : List DomainOp) :
    ∀ e ∈ applyDomainOps ops, e.2 ≠ [] :=
  applyDomainOps_inv ops [] (by simp)

/-- Witness for `domainIndex_no_empty_set`: one insert, then a remove
of a different topic's domain entry, leaves a non-empty entry. -/
theorem domainIndex_no_empty_set_witness :
    ("x", [({ key := [], announce := none, id := [1], domainName := "x", answer := none } : Topic)]) ∈
      applyDomainOps
        [DomainOp.insert "x" { key := [], announce := none, id := [1], domainName := "x", answer := none }] ∧
    ([({ key := [], announce := none, id := [1], domainName := "x", answer := none } : Topic)] : List Topic) ≠ [] :=
  ⟨by decide,
    domainIndex_no_empty_set
      [DomainOp.insert "x" { key := [], announce := none, id := [1], domainName := "x", answer := none }]
      ("x", [{ key := [], announce := none, id := [1], domainName := "x", answer := none }])
      (by decide)⟩

/-- Splitting the skip test in the inner loop of `_onmdnsquery`. -/
theorem filterBody_eq_some (id : Option (List Nat)) (t : Topic) (a : DnsRecord) :
    ((if idMatches id t then none else t.answer) = some a) ↔
      (idMatches id t = false ∧ t.answer = some a) := by
  by_cases h : idMatches id t <;> simp [h]

/-- Membership in one question's contribution to the response. -/
theorem mem_questionAnswers (domains : DomainMap) (res : Packet) (q : Question) (a : DnsRecord) :
    a ∈ questionAnswers domains res q ↔
      (q.qtype = "SRV" ∧ ∃ s, domainsGet domains q.name = some s ∧
        ∃ t ∈ s, idMatches (getId res q.name) t = false ∧ t.answer = some a) := by
  unfold questionAnswers
  by_cases hsrv : q.qtype = "SRV"
  · rw [if_pos hsrv]
    cases hget : domainsGet domains q.name with
    | none =>
      simp [hsrv]
    | some s =>
      simp only [hsrv, true_and, List.mem_filterMap]
      constructor
      · rintro ⟨t, ht, hta⟩
        obtain ⟨hm, ha⟩ := (filterBody_eq_some _ t a).1 hta
        exact ⟨s, rfl, t, ht, hm, ha⟩
      · rintro ⟨s2, hs2, t, ht, hm, ha⟩
        obtain rfl : s = s2 := by simpa using hs2
        exact ⟨t, ht, (filterBody_eq_some _ t a).2 ⟨hm, ha⟩⟩
  · rw [if_neg hsrv]
    simp [hsrv]

/-- C3: `_onmdnsquery` sends exactly one aggregated response per
incoming query; an answer record is in it exactly when some SRV
question names an indexed domain one of whose topics has that answer
record set and a session token different from the querier's (the token
travelling as the query's TXT record); consequently every answer to the
query a topic itself broadcasts comes from a topic with a different
token — a Topic never answers its own query. -/
theorem onmdnsquery_spec (domains : DomainMap) (res : Packet) :
    (onmdnsquery domains res).length = 1 ∧
    (∀ a, a ∈ onmdnsqueryAnswers domains res ↔
      ∃ q ∈ res.questions, q.qtype = "SRV" ∧
        ∃ s, domainsGet domains q.name = some s ∧
          ∃ t ∈ s, idMatches (getId res q.name) t = false ∧ t.answer = some a) ∧
    (∀ t : Topic, getId (topicQuery t) t.domainName = some t.id) ∧
    (∀ t : Topic, ∀ a, a ∈ onmdnsqueryAnswers domains (topicQuery t) →
      ∃ s, domainsGet domains t.domainName = some s ∧
        ∃ u ∈ s, u.answer = some a ∧ u.id ≠ t.id) := by
  have hgid : ∀ t : Topic, getId (topicQuery t) t.domainName = some t.id := by
    intro t
    simp [getId, topicQuery]
  refine ⟨rfl, ?_, hgid, ?_⟩
  · intro a
    rw [onmdnsqueryAnswers, List.mem_flatMap]
    constructor
    · rintro ⟨q, hq, ha⟩
      exact ⟨q, hq, (mem_questionAnswers domains res q a).1 ha⟩
    · rintro ⟨q, hq, hrest⟩
      exact ⟨q, hq, (mem_questionAnswers domains res q a).2 hrest⟩
  · intro t a ha
    rw [onmdnsqueryAnswers, List.mem_flatMap] at ha
    obtain ⟨q, hq, haq⟩ := ha
    have hq1 : q = { qtype := "SRV", name := t.domainName } := by
      simpa [topicQuery] using hq
    subst hq1
    rw [mem_questionAnswers] at haq
    obtain ⟨-, s, hs, u, hu, hm, hans⟩ := haq
    refine ⟨s, hs, u, hu, hans, ?_⟩
    intro hid
    rw [hgid t] at hm
    rw [idMatches] at hm
    simp [hid] at hm

/-- Witness for `onmdnsquery_spec`: two topics share a domain; the
response to the first one's own query carries only the second one's
answer record, from a token different from the querier's. -/
theorem onmdnsquery_spec_witness :
    DnsRecord.srv "x" { target := "0.0.0.0", port := 5 } ∈
      onmdnsqueryAnswers
        [("x", [{ key := [], announce := none, id := idPrefix ++ [1], domainName := "x",
                  answer := some (DnsRecord.srv "x" { target := "0.0.0.0", port := 4 }) },
                { key := [], announce := none, id := idPrefix ++ [2], domainName := "x",
                  answer := some (DnsRecord.srv "x" { target := "0.0.0.0", port := 5 }) }])]
        (topicQuery { key := [], announce := none, id := idPrefix ++ [1], domainName := "x",
                      answer := some (DnsRecord.srv "x" { target := "0.0.0.0", port := 4 }) }) ∧
    ∃ s, domainsGet
        [("x", [{ key := [], announce := none, id := idPrefix ++ [1], domainName := "x",
                  answer := some (DnsRecord.srv "x" { target := "0.0.0.0", port := 4 }) },
                { key := [], announce := none, id := idPrefix ++ [2], domainName := "x",
                  answer := some (DnsRecord.srv "x" { target := "0.0.0.0", port := 5 }) }])]
        "x" = some s ∧
      ∃ u ∈ s, u.answer = some (DnsRecord.srv "x" { target := "0.0.0.0", port := 5 }) ∧
        u.id ≠ idPrefix ++ [1] :=
  ⟨by decide,
    (onmdnsquery_spec
        [("x", [{ key := [], announce := none, id := idPrefix ++ [1], domainName := "x",
                  answer := some (DnsRecord.srv "x" { target := "0.0.0.0", port := 4 }) },
                { key := [], announce := none, id := idPrefix ++ [2], domainName := "x",
                  answer := some (DnsRecord.srv "x" { target := "0.0.0.0", port := 5 }) }])]
        { questions := [], answers := [] }).2.2.2
      { key := [], announce := none, id := idPrefix ++ [1], domainName := "x",
        answer := some (DnsRecord.srv "x" { target := "0.0.0.0", port := 4 }) }
      (DnsRecord.srv "x" { target := "0.0.0.0", port := 5 })
      (by decide)⟩

/-- A successful index lookup comes from an entry of the map. -/
theorem domainsGet_mem (m : DomainMap) (d : String) (s : List Topic)
    (h : domainsGet m d = some s) : ∃ e ∈ m, e.1 = d ∧ e.2 = s := by
  rw [domainsGet] at h
  obtain ⟨e, he, rfl⟩ := Option.map_eq_some'.1 h
  refine ⟨e, List.mem_of_find?_eq_some he, ?_, rfl⟩
  simpa using List.find?_some he

/-- A failed index lookup means no entry carries that domain. -/
theorem domainsGet_none (m : DomainMap) (d : String)
    (h : domainsGet m d = none) : ∀ e ∈ m, e.1 ≠ d := by
  rw [domainsGet, Option.map_eq_none'] at h
  intro e he
  have := List.find?_eq_none.1 h e he
  simpa using this

/-- After its removal from the index, a topic is in no set — provided
it was registered only under its own domain and the sets are
duplicate-free (JS `Set` semantics). -/
theorem domainsRemove_not_mem (m : DomainMap) (d : String) (t : Topic)
    (h1 : ∀ e ∈ m, t ∈ e.2 → e.1 = d) (h2 : ∀ e ∈ m, e.2.Nodup) :
    ∀ e ∈ domainsRemove m d t, t ∉ e.2 := by
  intro e he
  unfold domainsRemove at he
  split at he
  · next hnone =>
    intro hmem
    exact domainsGet_none m d hnone e he (h1 e he hmem)
  · next s hs =>
    simp only at he
    split at he
    · intro hmem
      have hem : e ∈ m := (List.mem_filter.1 he).1
      have hb : (!(e.1 == d)) = true := (List.mem_filter.1 he).2
      have hne : e.1 ≠ d := by simpa using hb
      exact hne (h1 e hem hmem)
    · rcases List.mem_map.1 he with ⟨e0, he0, rfl⟩
      by_cases hd : e0.1 = d
      · rw [if_pos hd]
        show t ∉ s.erase t
        obtain ⟨e1, he1, -, he1s⟩ := domainsGet_mem m d s hs
        intro hmem
        have hnd : s.Nodup := he1s ▸ h2 e1 he1
        exact absurd rfl (hnd.mem_erase_iff.1 hmem).1
      · rw [if_neg hd]
        intro hmem
        exact hd (h1 e0 he0 hmem)

/-- A delivery of `_onmdnsresponse` targets a topic of some indexed
domain. -/
theorem mem_onmdnsresponse (domains : DomainMap) (res : Packet) (addr : String)
    (t : Topic) (em : TopicEmit) (h : (t, em) ∈ onmdnsresponse domains res addr) :
    ∃ name s, domainsGet domains name = some s ∧ t ∈ s := by
  rw [onmdnsresponse, List.mem_flatMap] at h
  obtain ⟨a, _, ha⟩ := h
  cases a with
  | txt n d => simp [answerDeliveries] at ha
  | srv name data =>
    simp only [answerDeliveries] at ha
    split at ha
    · simp at ha
    · next s hs =>
      rcases List.mem_map.1 ha with ⟨u, hu, huv⟩
      have hut : u = t := congrArg Prod.fst huv
      subst hut
      exact ⟨name, s, hs, hu⟩

/-- C8: `destroy()` cancels both pending retries and terminates the
live stream; on a destroyed topic the DHT data handler emits nothing,
the stream done handler emits nothing and reschedules nothing, and —
the topic having been removed from the Domain Index — inbound multicast
responses deliver nothing to it.  No `peer` or `update` event follows
destruction. -/
theorem topic_destroy_silent :
    (∀ s : TopicState, s.destroyed = false →
      topicDestroyState s =
        { destroyed := true, timeoutDht := false, timeoutMdns := false, stream := false }) ∧
    (∀ (s : TopicState) (d : DhtData), s.destroyed = true → ondhtdata s d = []) ∧
    (∀ (s : TopicState) (called : Bool) (err : Option String), s.destroyed = true →
      ondhtdone s called err = (s, [])) ∧
    (∀ (m : DomainMap) (d : String) (t : Topic) (res : Packet) (addr : String),
      (∀ e ∈ m, t ∈ e.2 → e.1 = d) → (∀ e ∈ m, e.2.Nodup) →
      ∀ em : TopicEmit, (t, em) ∉ onmdnsresponse (domainsRemove m d t) res addr) := by
  refine ⟨?_, ?_, ?_, ?_⟩
  · intro s h
    simp [topicDestroyState, h]
  · intro s d h
    simp [ondhtdata, h]
  · intro s called err h
    simp [ondhtdone, h]
  · intro m d t res addr h1 h2 em hmem
    obtain ⟨name, s, hs, hts⟩ := mem_onmdnsresponse _ res addr t em hmem
    obtain ⟨e, he, -, hes⟩ := domainsGet_mem _ name s hs
    exact domainsRemove_not_mem m d t h1 h2 e he (hes ▸ hts)

/-- Witness for `topic_destroy_silent`: destroying a fully active topic
clears every handle, and a DHT data event on the destroyed topic emits
nothing. -/
theorem topic_destroy_silent_witness :
    topicDestroyState { destroyed := false, timeoutDht := true, timeoutMdns := true, stream := true } =
      { destroyed := true, timeoutDht := false, timeoutMdns := false, stream := false } ∧
    ondhtdata { destroyed := true, timeoutDht := false, timeoutMdns := false, stream := false }
      { node := 3, localPeers := [("h", 1)], peers := [("g", 2)] } = [] :=
  ⟨topic_destroy_silent.1 _ rfl, topic_destroy_silent.2.1 _ _ rfl⟩

/-- Folding the `lookupOne` dispatch over an appended trace. -/
theorem lookupOneFold_append (l l' : List LookupEvent)
    (i : LookupOneState × List LookupAction) :
    lookupOneFold (l ++ l') i = lookupOneFold l' (lookupOneFold l i) := by
  simp [lookupOneFold, List.foldl_append]

/-- `update` events leave the `lookupOne` listeners untouched and
produce no action. -/
theorem lookupOneFold_updates (es : List LookupEvent) :
    ∀ (s : LookupOneState) (acc : List LookupAction),
      (∀ e ∈ es, ∃ err, e = LookupEvent.update err) →
      lookupOneFold es (s, acc) = (s, acc) := by
  induction es with
  | nil => intro s acc _; rfl
  | cons e es ih =>
    intro s acc h
    obtain ⟨err, rfl⟩ := h e (List.mem_cons_self e es)
    have hstep : lookupOneFold (LookupEvent.update err :: es) (s, acc) =
        lookupOneFold es (s, acc ++ []) := rfl
    rw [hstep, List.append_nil]
    exact ih s acc fun e he => h e (List.mem_cons_of_mem _ he)

/-- Once both listeners are disarmed, no further event produces any
action. -/
theorem lookupOneFold_dead (es : List LookupEvent) :
    ∀ acc : List LookupAction,
      lookupOneFold es ({ peerArmed := false, closeArmed := false }, acc) =
        ({ peerArmed := false, closeArmed := false }, acc) := by
  induction es with
  | nil => intro acc; rfl
  | cons e es ih =>
    intro acc
    have hstep : lookupOneStep { peerArmed := false, closeArmed := false } e =
        ({ peerArmed := false, closeArmed := false }, []) := by
      cases e <;> simp [lookupOneStep]
    have hcons : lookupOneFold (e :: es) ({ peerArmed := false, closeArmed := false }, acc) =
        lookupOneFold es
          ((lookupOneStep { peerArmed := false, closeArmed := false } e).1,
            acc ++ (lookupOneStep { peerArmed := false, closeArmed := false } e).2) := rfl
    rw [hcons, hstep]
    simpa using ih acc

/-- C4 counterexample: when the lookup Topic's global loop closes
(clean stream end — an `update` event and a lazy reschedule) before any
candidate has been seen, `lookupOne` does NOT fail the caller's
callback: it performs no action at all on that trace.  The failure
listener is attached to the Topic's `close` event, which only topic
destruction emits. -/
theorem lookupOne_stream_end_no_callback :
    lookupOneRun [LookupEvent.update none] = [] := rfl

/-- C4 (amended): `lookupOne` resolves with the first peer-candidate
event, destroying the Topic before invoking the callback and delivering
nothing for any later event; if the Topic emits `close` (it was
destroyed) before any candidate has been seen, the callback fails with
an error; the global loop merely closing (an `update` event) neither
resolves nor fails the callback. -/
theorem lookupOne_behavior :
    (∀ (pre post : List LookupEvent) (p : PeerCandidate),
      (∀ e ∈ pre, ∃ err, e = LookupEvent.update err) →
      lookupOneRun (pre ++ LookupEvent.peer p :: post) =
        [LookupAction.destroyTopic, LookupAction.callback (Except.ok p)]) ∧
    (∀ pre : List LookupEvent,
      (∀ e ∈ pre, ∃ err, e = LookupEvent.update err) →
      lookupOneRun (pre ++ [LookupEvent.closeEv]) =
        [LookupAction.callback (Except.error "Lookup failed")]) ∧
    (∀ es : List LookupEvent,
      (∀ e ∈ es, ∃ err, e = LookupEvent.update err) → lookupOneRun es = []) := by
  refine ⟨?_, ?_, ?_⟩
  · intro pre post p hpre
    rw [lookupOneRun, lookupOneFold_append,
      lookupOneFold_updates pre _ _ hpre]
    have hcons : lookupOneFold (LookupEvent.peer p :: post)
        ({ peerArmed := true, closeArmed := true }, []) =
        lookupOneFold post
          ({ peerArmed := false, closeArmed := false },
            [LookupAction.destroyTopic, LookupAction.callback (Except.ok p)]) := rfl
    rw [hcons, lookupOneFold_dead]
  · intro pre hpre
    rw [lookupOneRun, lookupOneFold_append,
      lookupOneFold_updates pre _ _ hpre]
    rfl
  · intro es hes
    rw [lookupOneRun, lookupOneFold_updates es _ _ hes]

/-- Witness for `lookupOne_behavior`: an `update`, then a first peer,
then the topic's `close` — the run destroys the Topic and resolves once
with that peer; the later `close` delivers nothing. -/
theorem lookupOne_behavior_witness :
    lookupOneRun [LookupEvent.update none,
        LookupEvent.peer { host := "h", port := 1, isLocal := false, referrer := some 2 },
        LookupEvent.closeEv] =
      [LookupAction.destroyTopic,
        LookupAction.callback (Except.ok { host := "h", port := 1, isLocal := false, referrer := some 2 })] :=
  lookupOne_behavior.1 [LookupEvent.update none] [LookupEvent.closeEv]
    { host := "h", port := 1, isLocal := false, referrer := some 2 }
    (by
      intro e he
      rw [List.mem_singleton] at he
      exact ⟨none, he⟩)

/-- Every teardown task decrements the join counter by one. -/
theorem runSessionTask_missing (s : SessionState) (tk : SessionTask) :
    (runSessionTask s tk).missing = s.missing - 1 := by
  cases tk <;> (simp only [runSessionTask, doneStep]; split_ifs with h <;> simp [h])

/-- Every teardown task appends its own events, plus the session close
exactly when it brings the join counter to zero. -/
theorem runSessionTask_trace (s : SessionState) (tk : SessionTask) :
    (runSessionTask s tk).trace = s.trace ++ sessionTaskEvents tk ++
      (if s.missing - 1 = 0 then [SessionEvent.sessionClosed] else []) := by
  cases tk <;>
    (simp only [runSessionTask, doneStep, sessionTaskEvents]; split_ifs with h <;> simp)

/-- Running tasks that exactly exhaust the join counter emits all their
events and then the session close, at the very end. -/
theorem destroyFold (order : List SessionTask) :
    ∀ s : SessionState, s.missing = order.length → order ≠ [] →
      order.foldl runSessionTask s =
        { missing := 0,
          trace := s.trace ++ order.flatMap sessionTaskEvents ++ [SessionEvent.sessionClosed] } := by
  induction order with
  | nil => intro s _ h; exact absurd rfl h
  | cons tk rest ih =>
    intro s hm _
    simp only [List.length_cons] at hm
    by_cases hr : rest = []
    · subst hr
      simp only [List.length_nil] at hm
      have h0 : s.missing - 1 = 0 := by omega
      rw [List.foldl_cons, List.foldl_nil]
      have heta : runSessionTask s tk =
          { missing := (runSessionTask s tk).missing, trace := (runSessionTask s tk).trace } := rfl
      rw [heta, runSessionTask_missing, runSessionTask_trace, h0, if_pos rfl]
      simp
    · have hmiss : (runSessionTask s tk).missing = rest.length := by
        rw [runSessionTask_missing]; omega
      have hrl : rest.length ≠ 0 := fun h => hr (List.length_eq_zero.1 h)
      rw [List.foldl_cons, ih _ hmiss hr]
      have htr := runSessionTask_trace s tk
      rw [if_neg (by omega : ¬ s.missing - 1 = 0), List.append_nil] at htr
      rw [htr]
      simp

/-- C1: for every set of live topics and every completion order of the
deferred teardown tasks, `destroy()` emits the session `close` exactly
once, strictly after every topic has emitted its own `close`; the
synchronous part of `destroy` emits nothing, and there is always at
least one deferred task (the session's own `nextTick`), so a session
with zero live topics still defers `close` by one scheduling tick. -/
theorem destroy_close_ordering (topics : List DTopic) (order : List SessionTask)
    (hperm : order.Perm (destroyTasks topics)) :
    ((destroyRun topics order).trace.count SessionEvent.sessionClosed = 1) ∧
    (∃ pre, (destroyRun topics order).trace = pre ++ [SessionEvent.sessionClosed] ∧
      SessionEvent.sessionClosed ∉ pre ∧
      ∀ i < topics.length, SessionEvent.topicClosed i ∈ pre) ∧
    (destroyInit topics).trace = [] ∧
    destroyTasks topics ≠ [] := by
  have hlen : order.length = topics.length + 1 := by
    rw [hperm.length_eq, destroyTasks]
    simp
  have hne : order ≠ [] := by
    intro h
    subst h
    simp at hlen
  have hrun : destroyRun topics order =
      { missing := 0,
        trace := order.flatMap sessionTaskEvents ++ [SessionEvent.sessionClosed] } := by
    have hfold := destroyFold order (destroyInit topics)
      (by simp only [destroyInit, hlen]; omega) hne
    simpa [destroyRun, destroyInit] using hfold
  have hnoclose : SessionEvent.sessionClosed ∉ order.flatMap sessionTaskEvents := by
    intro h
    rw [List.mem_flatMap] at h
    obtain ⟨tk, _, htk⟩ := h
    cases tk <;> simp [sessionTaskEvents] at htk
  refine ⟨?_, ⟨order.flatMap sessionTaskEvents, ?_, hnoclose, ?_⟩, rfl, by simp [destroyTasks]⟩
  · rw [hrun]
    show (order.flatMap sessionTaskEvents ++ [SessionEvent.sessionClosed]).count
      SessionEvent.sessionClosed = 1
    rw [List.count_append, List.count_eq_zero.2 hnoclose]
    rfl
  · rw [hrun]
  · intro i hi
    have htk : SessionTask.topicClose i (announcingAt topics i) ∈ destroyTasks topics := by
      rw [destroyTasks]
      exact List.mem_append_left _ (List.mem_map.2 ⟨i, List.mem_range.2 hi, rfl⟩)
    have hin : SessionTask.topicClose i (announcingAt topics i) ∈ order := hperm.mem_iff.2 htk
    rw [List.mem_flatMap]
    exact ⟨_, hin, by simp [sessionTaskEvents]⟩

/-- Witness for `destroy_close_ordering`: two topics (one announcing),
tasks completing in reverse order — the session close is still emitted
exactly once. -/
theorem destroy_close_ordering_witness :
    ([SessionTask.finalTick, SessionTask.topicClose 1 true, SessionTask.topicClose 0 false].Perm
      (destroyTasks [{ announcing := false }, { announcing := true }])) ∧
    ((destroyRun [{ announcing := false }, { announcing := true }]
        [SessionTask.finalTick, SessionTask.topicClose 1 true,
          SessionTask.topicClose 0 false]).trace.count SessionEvent.sessionClosed = 1) :=
  ⟨by decide,
    (destroy_close_ordering [{ announcing := false }, { announcing := true }]
      [SessionTask.finalTick, SessionTask.topicClose 1 true, SessionTask.topicClose 0 false]
      (by decide)).1⟩

end Discovery
